import Mathlib

/-!
Verification of the client-side content resolution and interaction-state
subsystem of the micro-media gallery.

The development shallow-embeds the relevant JavaScript source files:

- the reaction store of the gallery interactions script
  (functions loadReactionsForMedia, saveReactionsForMedia, handleReaction,
  removeReaction);
- the source resolver of js/gallery.js
  (loadMediaFiles, loadFromMediaJson, loadFromCatalog, loadFromNginx),
  together with the storage override step that reads the keys
  media-videos and media-images through the window.storage polyfill of
  js/storage-polyfill.js;
- the batch renderer displayNextBatch of js/gallery.js;
- the embed URL translator convertToEmbedUrl of js/gallery.js.

JavaScript objects used as string-keyed maps are embedded as association
lists in insertion order; JavaScript numbers holding vote counts are
embedded as integers; fallible operations are embedded with Option or with
explicit variant types recording which step of the original code throws.
-/

/-! ## Generic JavaScript-semantics helpers -/

/-- Models the JavaScript idiom such as item.title or dflt applied to a
possibly absent string property: an absent property and an empty string are
both falsy, so both select the default. -/
def jsOr (o : Option String) (dflt : String) : String :=
  match o with
  | some s => if s = "" then dflt else s
  | none => dflt

/-- Truthiness of a possibly absent string property: present and nonempty. -/
def jsTruthy (o : Option String) : Bool :=
  match o with
  | some s => s != ""
  | none => false

/-- Models JavaScript template interpolation of a possibly absent string:
an undefined value interpolates as the text undefined. -/
def jsStr (o : Option String) : String :=
  match o with
  | some s => s
  | none => "undefined"

/-- Lookup in a string-keyed association list, mirroring JavaScript object
property read (first binding wins; objects never hold duplicate keys). -/
def assocGet {α : Type} : List (String × α) → String → Option α
  | [], _ => none
  | (k, v) :: rest, key => if k = key then some v else assocGet rest key

/-- Property write on a string-keyed association list, mirroring JavaScript
object property assignment: update in place, or append a new key in
insertion order. -/
def assocSet {α : Type} : List (String × α) → String → α → List (String × α)
  | [], key, v => [(key, v)]
  | (k, w) :: rest, key, v =>
    if k = key then (key, v) :: rest else (k, w) :: assocSet rest key v

/-- Models the JavaScript delete operator on a string-keyed object. -/
def assocErase {α : Type} : List (String × α) → String → List (String × α)
  | [], _ => []
  | (k, v) :: rest, key => if k = key then rest else (k, v) :: assocErase rest key

/-! ## Reaction store (gallery interactions script)

Embeds the persisted reaction record
  reactions:<mediaId> -> { reactions: { kind: { count, users } }, userChoice }
and the functions loadReactionsForMedia, saveReactionsForMedia,
handleReaction and removeReaction. The persisted store (localStorage) is
embedded as an association list from media id to record; JSON serialization
is elided, storing records at the semantic level. -/

/-- One reaction tally: the JavaScript object { count: N, users: [...] }.
The count is an integer because JavaScript numbers are signed. -/
structure Reaction where
  count : Int
  users : List String
deriving DecidableEq

/-- The stored record { reactions: {...}, userChoice: kind or null } for one
media id. Reaction kinds map to tallies in insertion order. -/
structure ReactionData where
  reactions : List (String × Reaction)
  userChoice : Option String
deriving DecidableEq

/-- The default record returned by loadReactionsForMedia when the key is
absent or unparsable: { reactions: {}, userChoice: null }. -/
def freshData : ReactionData := { reactions := [], userChoice := none }

/-- Models loadReactionsForMedia: read the record for a media id from the
store, defaulting to the fresh record. -/
def loadReactionsForMedia (store : List (String × ReactionData)) (mediaId : String) :
    ReactionData :=
  (assocGet store mediaId).getD freshData

/-- Models saveReactionsForMedia: write the record under the key for this
media id; a throwing setItem is caught and logged, leaving the store
unchanged. The failing flag records whether the write throws. -/
def saveReactionsForMedia (failing : Bool) (store : List (String × ReactionData))
    (mediaId : String) (data : ReactionData) : List (String × ReactionData) :=
  if failing then store else assocSet store mediaId data

/-- Models the increment step of handleReaction: count++ and pushing the
user id onto the users array of an existing kind. The kind is always
present at this point in the original code; an absent kind leaves the map
unchanged. -/
def bumpReaction (l : List (String × Reaction)) (k u : String) :
    List (String × Reaction) :=
  match assocGet l k with
  | some r => assocSet l k { count := r.count + 1, users := r.users ++ [u] }
  | none => l

/-- Models removeReaction(data, reactionType, userId): decrement the count
clamped at zero, filter the user out of the users array, and delete the
kind entirely when the count reaches zero. -/
def removeReaction (d : ReactionData) (k u : String) : ReactionData :=
  match assocGet d.reactions k with
  | none => d
  | some r =>
    let r2 : Reaction :=
      { count := max 0 (r.count - 1), users := r.users.filter (fun i => i != u) }
    if r2.count = 0 then { d with reactions := assocErase d.reactions k }
    else { d with reactions := assocSet d.reactions k r2 }

/-- Models the state transition of handleReaction on a loaded record, given
the clicked reaction kind and the user id: clicking the current choice
toggles it off; otherwise the previous choice (if any) is removed and the
clicked kind is incremented and recorded as the choice. -/
def handleReaction (d : ReactionData) (k u : String) : ReactionData :=
  if d.userChoice = some k then
    let d1 := removeReaction d k u
    { d1 with userChoice := none }
  else
    let d1 := match d.userChoice with
      | some j => removeReaction d j u
      | none => d
    let d2 :=
      if (assocGet d1.reactions k).isNone then
        { d1 with reactions := d1.reactions ++ [(k, { count := 0, users := [] })] }
      else d1
    { d2 with reactions := bumpReaction d2.reactions k u, userChoice := some k }

/-- Models one full click handled by handleReaction including persistence:
load the record for the media id, apply the transition, save (which is a
logged no-op when the store rejects the write), and return the new store
together with the record passed to updateAllReactionsUI. -/
def handleReactionFull (failing : Bool) (store : List (String × ReactionData))
    (mediaId k u : String) : List (String × ReactionData) × ReactionData :=
  let data := loadReactionsForMedia store mediaId
  let newData := handleReaction data k u
  (saveReactionsForMedia failing store mediaId newData, newData)

/-- Displayed count for a kind, as updateAllReactionsUI reads it:
reaction ? reaction.count : 0. An absent kind displays as zero. -/
def countOf (d : ReactionData) (k : String) : Int :=
  match assocGet d.reactions k with
  | some r => r.count
  | none => 0

/-- Voter set for a kind; an absent kind has no voters. -/
def usersOf (d : ReactionData) (k : String) : List String :=
  match assocGet d.reactions k with
  | some r => r.users
  | none => []

/-- Records reachable from the fresh record by clicks handled by
handleReaction (any sequence of kinds and user ids). -/
inductive Reachable : ReactionData → Prop
  | fresh : Reachable freshData
  | step (d : ReactionData) (k u : String) :
      Reachable d → Reachable (handleReaction d k u)

/-- The record holding exactly one active kind with one voter. -/
def singletonData (k u : String) : ReactionData :=
  { reactions := [(k, { count := 1, users := [u] })], userChoice := some k }

/-! ## Source resolver (js/gallery.js)

Embeds loadMediaFiles and its priority chain: loadFromMediaJson (the
primary catalog data/media.json with the storage override step),
loadFromCatalog (the legacy in-memory catalog, also with the override
step), and loadFromNginx (the autoindex directory listing). -/

/-- A raw catalog record as found in data/media.json, the storage override
arrays, or the legacy catalog: every property is optional. The field ctype
embeds the JavaScript property named type carried by cloud link records. -/
structure RawItem where
  id : Option String
  file : Option String
  url : Option String
  isCloudLink : Bool
  title : Option String
  desc : Option String
  path : Option String
  ctype : Option String
deriving DecidableEq

/-- A catalog entry is either a bare string (legacy form) or an object.
Property access on a bare string yields undefined for every record
property, exactly as in JavaScript. -/
inductive Entry
  | str (s : String)
  | obj (r : RawItem)
deriving DecidableEq

/-- Property id of an entry; undefined on a bare string. -/
def Entry.idOf : Entry → Option String
  | .str _ => none
  | .obj r => r.id

/-- Property file of an entry; undefined on a bare string. -/
def Entry.fileOf : Entry → Option String
  | .str _ => none
  | .obj r => r.file

/-- Property url of an entry; undefined on a bare string. -/
def Entry.urlOf : Entry → Option String
  | .str _ => none
  | .obj r => r.url

/-- Property isCloudLink of an entry; falsy on a bare string. -/
def Entry.isCloudOf : Entry → Bool
  | .str _ => false
  | .obj r => r.isCloudLink

/-- Property title of an entry; undefined on a bare string. -/
def Entry.titleOf : Entry → Option String
  | .str _ => none
  | .obj r => r.title

/-- Property desc of an entry; undefined on a bare string. -/
def Entry.descOf : Entry → Option String
  | .str _ => none
  | .obj r => r.desc

/-- Property path of an entry; undefined on a bare string. -/
def Entry.pathOf : Entry → Option String
  | .str _ => none
  | .obj r => r.path

/-- Property type of an entry; undefined on a bare string. -/
def Entry.ctypeOf : Entry → Option String
  | .str _ => none
  | .obj r => r.ctype

/-- A resolved media item as pushed onto allMediaItems. Fields that a given
push statement does not set are recorded as absent. The field mtype embeds
the JavaScript property named type (video, image or cloud-link). -/
structure MediaItem where
  id : Option String
  mtype : String
  cloudType : Option String
  url : Option String
  path : Option String
  file : Option String
  title : String
  desc : String
deriving DecidableEq

/-- Models the body of the videos.forEach loop of loadFromMediaJson: a
record with a truthy isCloudLink or url becomes a cloud-link item,
otherwise a local video item whose id defaults to a generated one and
whose path defaults to the video base path joined with the file name. -/
def processVideo (genId : String) (e : Entry) : MediaItem :=
  if e.isCloudOf || jsTruthy e.urlOf then
    { id := e.idOf, mtype := "cloud-link", cloudType := some "video", url := e.urlOf,
      path := none, file := none, title := jsOr e.titleOf "Cloud Video",
      desc := jsOr e.descOf "" }
  else
    { id := some (jsOr e.idOf genId), mtype := "video", cloudType := none, url := none,
      path := some (jsOr e.pathOf ("media/videos/sd/" ++ jsStr e.fileOf)),
      file := e.fileOf, title := jsOr e.titleOf "", desc := jsOr e.descOf "" }

/-- Models the body of the images.forEach loop of loadFromMediaJson. -/
def processImage (genId : String) (e : Entry) : MediaItem :=
  if e.isCloudOf || jsTruthy e.urlOf then
    { id := e.idOf, mtype := "cloud-link", cloudType := some "image", url := e.urlOf,
      path := none, file := none, title := jsOr e.titleOf "Cloud Image",
      desc := jsOr e.descOf "" }
  else
    { id := some (jsOr e.idOf genId), mtype := "image", cloudType := none, url := none,
      path := some (jsOr e.pathOf ("media/images/full/" ++ jsStr e.fileOf)),
      file := e.fileOf, title := jsOr e.titleOf "", desc := jsOr e.descOf "" }

/-- The videos.forEach loop of loadFromMediaJson. Generated fallback ids
(timestamp plus randomness in the original) are supplied by the abstract
stream gen, indexed by position. -/
def processVideos (gen : Nat → String) : Nat → List Entry → List MediaItem
  | _, [] => []
  | i, e :: rest => processVideo (gen i) e :: processVideos gen (i + 1) rest

/-- The images.forEach loop of loadFromMediaJson. -/
def processImages (gen : Nat → String) : Nat → List Entry → List MediaItem
  | _, [] => []
  | i, e :: rest => processImage (gen i) e :: processImages gen (i + 1) rest

/-- The cloudLinks.forEach loop of loadFromMediaJson. -/
def processCloudLink (e : Entry) : MediaItem :=
  { id := e.idOf, mtype := "cloud-link", cloudType := some (jsOr e.ctypeOf "video"),
    url := e.urlOf, path := none, file := none,
    title := jsOr e.titleOf "Cloud Media", desc := jsOr e.descOf "" }

/-- Maps processCloudLink over the cloud_links array. -/
def processCloudLinks (l : List Entry) : List MediaItem :=
  l.map processCloudLink

/-- The parsed primary catalog document { videos, images, cloud_links };
absent arrays are already defaulted to empty as by data.videos or []. -/
structure CatalogData where
  videos : List Entry
  images : List Entry
  cloud_links : List Entry
deriving DecidableEq

/-- State of one storage override key as observed through the sequence
window.storage.get followed by JSON.parse of the value:
absent means the key is missing, so the get call throws;
presentEmpty means the get succeeds but the value is falsy, so the
override is skipped without parsing;
invalid means the get succeeds but JSON.parse of the value throws;
parsed items means the override array was obtained. -/
inductive StorageVal
  | absent
  | presentEmpty
  | invalid
  | parsed (items : List Entry)
deriving DecidableEq

/-- Models the storage override step shared by loadFromMediaJson and
loadFromCatalog. Both get calls run first inside one try block, then the
videos value is parsed and assigned, then the images value; the first throw
jumps to the catch, keeping every assignment not yet executed:
a missing key on either get aborts both overrides, an unparsable videos
value aborts both, and an unparsable images value keeps only the videos
override. -/
def applyOverrides (dv di : List Entry) (sv si : StorageVal) :
    List Entry × List Entry :=
  match sv, si with
  | .absent, _ => (dv, di)
  | _, .absent => (dv, di)
  | .invalid, _ => (dv, di)
  | .parsed v, .invalid => (v, di)
  | .parsed v, .presentEmpty => (v, di)
  | .parsed v, .parsed i => (v, i)
  | .presentEmpty, .invalid => (dv, di)
  | .presentEmpty, .presentEmpty => (dv, di)
  | .presentEmpty, .parsed i => (dv, i)

/-- The allMediaItems array built by loadFromMediaJson after the override
step: processed videos, then images, then cloud links. -/
def resolvedItems (genV genI : Nat → String) (d : CatalogData)
    (sv si : StorageVal) : List MediaItem :=
  let vi := applyOverrides d.videos d.images sv si
  processVideos genV 0 vi.1 ++ processImages genI 0 vi.2 ++
    processCloudLinks d.cloud_links

/-- The observable outcome of a resolver run: the media items rendered into
the gallery together with the showMessage text when one is appended. Both
parts are present at once on the directory-listing path when its video
fetch fails while its independent image fetch succeeds. -/
structure Outcome where
  rendered : List MediaItem
  message : Option (String × String)
deriving DecidableEq

/-- Models loadFromMediaJson on a successfully fetched and parsed catalog:
apply the storage overrides, process all three arrays, and show the
no-media message when the combined list is empty. -/
def loadFromMediaJson (genV genI : Nat → String) (d : CatalogData)
    (sv si : StorageVal) : Outcome :=
  let its := resolvedItems genV genI d sv si
  if its = [] then
    { rendered := [],
      message := some ("No media in catalog",
        "Add files and run: python catalog_manager_v2.py scan") }
  else { rendered := its, message := none }

/-- The legacy in-memory catalog object of media-catalog.js. -/
structure LegacyCatalog where
  videos : List Entry
  images : List Entry
deriving DecidableEq

/-- Models one iteration of the catalog.videos.forEach loop of
loadFromCatalog: a bare string becomes a video record, an object is pushed
only when its file property is truthy, and any other object is skipped. -/
def processLegacyVideo (genId : String) (e : Entry) : Option MediaItem :=
  match e with
  | .str s => some
      { id := some genId, mtype := "video", cloudType := none, url := none,
        path := some ("media/videos/sd/" ++ s), file := some s, title := "", desc := "" }
  | .obj r =>
    if jsTruthy r.file then
      some
        { id := some (jsOr r.id genId), mtype := "video", cloudType := none,
          url := none, path := some ("media/videos/sd/" ++ jsStr r.file), file := r.file,
          title := jsOr r.title "", desc := jsOr r.desc "" }
    else none

/-- Models one iteration of the catalog.images.forEach loop of
loadFromCatalog. -/
def processLegacyImage (genId : String) (e : Entry) : Option MediaItem :=
  match e with
  | .str s => some
      { id := some genId, mtype := "image", cloudType := none, url := none,
        path := some ("media/images/full/" ++ s), file := some s, title := "", desc := "" }
  | .obj r =>
    if jsTruthy r.file then
      some
        { id := some (jsOr r.id genId), mtype := "image", cloudType := none,
          url := none, path := some ("media/images/full/" ++ jsStr r.file), file := r.file,
          title := jsOr r.title "", desc := jsOr r.desc "" }
    else none

/-- The catalog.videos.forEach loop of loadFromCatalog. -/
def processLegacyVideos (gen : Nat → String) : Nat → List Entry → List MediaItem
  | _, [] => []
  | i, e :: rest =>
    match processLegacyVideo (gen i) e with
    | some it => it :: processLegacyVideos gen (i + 1) rest
    | none => processLegacyVideos gen (i + 1) rest

/-- The catalog.images.forEach loop of loadFromCatalog. -/
def processLegacyImages (gen : Nat → String) : Nat → List Entry → List MediaItem
  | _, [] => []
  | i, e :: rest =>
    match processLegacyImage (gen i) e with
    | some it => it :: processLegacyImages gen (i + 1) rest
    | none => processLegacyImages gen (i + 1) rest

/-- Models loadFromCatalog: the same storage override step, then the legacy
string-or-object processing, then the empty check. -/
def loadFromCatalog (genV genI : Nat → String) (cat : LegacyCatalog)
    (sv si : StorageVal) : Outcome :=
  let vi := applyOverrides cat.videos cat.images sv si
  let its := processLegacyVideos genV 0 vi.1 ++ processLegacyImages genI 0 vi.2
  if its = [] then
    { rendered := [],
      message := some ("No media in catalog", "Add files and use admin panel") }
  else { rendered := its, message := none }

/-- The video extension allow-list of loadFromNginx. -/
def nginxVideoExts : List String := ["mp4", "webm", "mov"]

/-- The image extension allow-list of loadFromNginx. -/
def nginxImageExts : List String := ["jpg", "jpeg", "png", "gif", "webp"]

/-- Splits a character list at every occurrence of a separator character,
as JavaScript split with a one-character separator. -/
def splitOnChar (c : Char) : List Char → List (List Char)
  | [] => [[]]
  | a :: rest =>
    let r := splitOnChar c rest
    if a = c then [] :: r
    else (a :: r.headD []) :: r.tail

/-- Models filename.split(".").pop().toLowerCase(): the lowercased text
after the last dot, or the whole lowercased name when it has no dot. -/
def jsExtLower (f : String) : String :=
  String.mk (((splitOnChar '.' f.data).getLastD []).map Char.toLower)

/-- The anchor filter of loadFromNginx: skip falsy and parent-directory
hrefs, then keep exactly the names whose extension is in the allow-list. -/
def nginxKeep (exts : List String) (f : String) : Bool :=
  !(f = "" || f = "../") && exts.contains (jsExtLower f)

/-- The links.forEach loop over the video directory listing. -/
def nginxVideoItems (gen : Nat → String) : Nat → List String → List MediaItem
  | _, [] => []
  | i, f :: rest =>
    if nginxKeep nginxVideoExts f then
      { id := some (gen i), mtype := "video", cloudType := none, url := none,
        path := some ("media/videos/sd/" ++ f), file := some f, title := "", desc := "" }
        :: nginxVideoItems gen (i + 1) rest
    else nginxVideoItems gen (i + 1) rest

/-- The links.forEach loop over the image directory listing. -/
def nginxImageItems (gen : Nat → String) : Nat → List String → List MediaItem
  | _, [] => []
  | i, f :: rest =>
    if nginxKeep nginxImageExts f then
      { id := some (gen i), mtype := "image", cloudType := none, url := none,
        path := some ("media/images/full/" ++ f), file := some f, title := "", desc := "" }
        :: nginxImageItems gen (i + 1) rest
    else nginxImageItems gen (i + 1) rest

/-- Models loadFromNginx: the video and image directory fetches are two
independent promise chains. A successful fetch pushes its filtered anchors
and renders them; a failed video fetch additionally shows the no-media
message (while a successful image fetch still renders its anchors next to
it), and a failed image fetch is only logged. -/
def loadFromNginx (genV genI : Nat → String)
    (nv ni : Option (List String)) : Outcome :=
  let imgItems := match ni with
    | some hi => nginxImageItems genI 0 hi
    | none => []
  match nv with
  | none =>
    { rendered := imgItems,
      message := some ("No media found", "Run: python catalog_manager_v2.py scan") }
  | some hv => { rendered := nginxVideoItems genV 0 hv ++ imgItems, message := none }

/-- The external world as loadMediaFiles observes it. The mediaJson field
is the parsed primary catalog, or absent when the fetch, the ok check, the
JSON parse or the array shape fails (all of which throw inside the try
block); mediaCatalog is the legacy global, absent when undefined; the nginx
fields are the directory listings, absent when their fetch rejects. -/
structure Env where
  mediaJson : Option CatalogData
  sv : StorageVal
  si : StorageVal
  mediaCatalog : Option LegacyCatalog
  nginxVideos : Option (List String)
  nginxImages : Option (List String)

/-- Models loadMediaFiles: try the primary catalog; on a throw fall back to
the legacy catalog when defined, else to the directory listing. -/
def loadMediaFiles (genV genI : Nat → String) (env : Env) : Outcome :=
  match env.mediaJson with
  | some d => loadFromMediaJson genV genI d env.sv env.si
  | none =>
    match env.mediaCatalog with
    | some cat => loadFromCatalog genV genI cat env.sv env.si
    | none => loadFromNginx genV genI env.nginxVideos env.nginxImages

/-- An images-from-storage selector naming which list the images kind ends
up using in the amended override statement. -/
def overrideImages (di : List Entry) (si : StorageVal) : List Entry :=
  match si with
  | .parsed i => i
  | _ => di

/-- A fixed id stream for concrete counterexamples. -/
def gid : Nat → String := fun _ => "gid"

/-- A plain object entry with only an id and a file. -/
def fileEntry (i f : String) : Entry :=
  .obj { id := some i, file := some f, url := none, isCloudLink := false,
         title := none, desc := none, path := none, ctype := none }

/-- The legacy catalog holding one bare-string video, used to show that an
empty primary catalog does not fall through to it. -/
def legacyOneVideo : LegacyCatalog := { videos := [Entry.str "a.mp4"], images := [] }

/-- Environment with a valid but empty primary catalog and a nonempty
legacy catalog. -/
def envEmptyPrimary : Env :=
  { mediaJson := some { videos := [], images := [], cloud_links := [] },
    sv := .absent, si := .absent,
    mediaCatalog := some legacyOneVideo,
    nginxVideos := some [], nginxImages := some [] }

/-- Primary catalog with one video and one image, for the override claims. -/
def catOneEach : CatalogData :=
  { videos := [fileEntry "v1" "cat.mp4"], images := [fileEntry "i1" "cat.jpg"],
    cloud_links := [] }

/-- The criterion by which the legacy loops keep an entry: bare strings are
always kept, objects only when their file property is truthy. Extensions
play no role. -/
def legacyKeep (e : Entry) : Bool :=
  match e with
  | .str _ => true
  | .obj r => jsTruthy r.file

/-! ## Batch renderer (displayNextBatch of js/gallery.js) -/

/-- The constant ITEMS_PER_LOAD. -/
def ITEMS_PER_LOAD : Nat := 5

/-- The pagination state: the displayedCount counter together with the
indices of the item cards appended to the gallery, in append order. -/
structure GalleryState where
  displayedCount : Nat
  renderedIdx : List Nat
deriving DecidableEq

/-- Models displayNextBatch over a resolved list with the given length:
append the cards from displayedCount up to the end index, then advance
displayedCount to it. -/
def displayNextBatch (total : Nat) (s : GalleryState) : GalleryState :=
  let endIndex := min (s.displayedCount + ITEMS_PER_LOAD) total
  { displayedCount := endIndex,
    renderedIdx := s.renderedIdx ++ List.range' s.displayedCount (endIndex - s.displayedCount) }

/-- One click of the load-more button over a fully resolved 12-item list. -/
def pageStep : GalleryState → GalleryState := displayNextBatch 12

/-- The pagination state right after a resolve: nothing displayed yet. -/
def pageS0 : GalleryState := { displayedCount := 0, renderedIdx := [] }

/-! ## Embed URL translator (convertToEmbedUrl of js/gallery.js)

URLs are embedded as character lists and the JavaScript string operations
used by convertToEmbedUrl (includes, split, replace, endsWith, toLowerCase,
URLSearchParams.get and the two regular expressions) are defined over them.
Percent-decoding of query values is elided. -/

/-- Index of the first occurrence of a pattern in a character list, as
JavaScript indexOf of a substring. -/
def findSub (pat : List Char) : List Char → Option Nat
  | [] => if pat.isEmpty then some 0 else none
  | c :: rest =>
    if pat.isPrefixOf (c :: rest) then some 0
    else (findSub pat rest).map (· + 1)

/-- Models JavaScript String.includes. -/
def jsIncludes (hay pat : List Char) : Bool :=
  (findSub pat hay).isSome

/-- Fuelled worker for jsSplit; every found occurrence of a nonempty
separator consumes at least one character, so fuel one beyond the input
length never runs out. -/
def jsSplitAux (sep : List Char) : Nat → List Char → List (List Char)
  | 0, s => [s]
  | fuel + 1, s =>
    match findSub sep s with
    | none => [s]
    | some i => s.take i :: jsSplitAux sep fuel (s.drop (i + sep.length))

/-- Models JavaScript String.split with a nonempty string separator. -/
def jsSplit (sep s : List Char) : List (List Char) :=
  jsSplitAux sep (s.length + 1) s

/-- Models String.replace with a plain string pattern: only the first
occurrence is replaced. -/
def jsReplaceFirst (pat repl s : List Char) : List Char :=
  match findSub pat s with
  | none => s
  | some i => s.take i ++ repl ++ s.drop (i + pat.length)

/-- Models new URLSearchParams(qs).get(name): strip one leading question
mark, split the query on ampersands, split each nonempty segment at its
first equals sign, and return the value of the first pair with the given
name (without percent-decoding). -/
def searchParamsGet (name : List Char) (qs : List Char) : Option (List Char) :=
  let q := if qs.head? = some '?' then qs.tail else qs
  let pairs := (jsSplit ['&'] q).filterMap (fun p =>
    if p = [] then none
    else match findSub ['='] p with
      | none => some (p, ([] : List Char))
      | some i => some (p.take i, p.drop (i + 1)))
  ((pairs.filter (fun pr => pr.1 == name)).head?).map (fun pr => pr.2)

/-- The YouTube branch: with a youtube.com or youtu.be URL, extract the
video id from the watch query form or from the short-link path form, and
on a truthy id return the embed-path URL; otherwise fall through. -/
def tryYouTube (url : List Char) : Option (List Char) :=
  if jsIncludes url "youtube.com".data || jsIncludes url "youtu.be".data then
    let videoId : List Char :=
      if jsIncludes url "youtube.com/watch".data then
        (searchParamsGet "v".data (((jsSplit ['?'] url).get? 1).getD [])).getD []
      else if jsIncludes url "youtu.be/".data then
        ((jsSplit ['?'] (((jsSplit "youtu.be/".data url).get? 1).getD [])).get? 0).getD []
      else []
    if videoId = [] then none
    else some ("https://www.youtube.com/embed/".data ++ videoId)
  else none

/-- Maximal digit run at the head of a character list, the capture of a
digits-plus group. -/
def digitRun : List Char → List Char
  | [] => []
  | c :: rest => if c.isDigit then c :: digitRun rest else []

/-- First match of the Vimeo id pattern: the first position where the text
vimeo.com followed by a slash and at least one digit occurs, capturing the
maximal digit run. -/
def vimeoMatch : List Char → Option (List Char)
  | [] => none
  | c :: rest =>
    if "vimeo.com/".data.isPrefixOf (c :: rest) then
      let run := digitRun ((c :: rest).drop 10)
      if run = [] then vimeoMatch rest else some run
    else vimeoMatch rest

/-- The Vimeo branch: rewrite to the player-path form when the numeric id
pattern matches. -/
def tryVimeo (url : List Char) : Option (List Char) :=
  if jsIncludes url "vimeo.com".data then
    (vimeoMatch url).map (fun d => "https://player.vimeo.com/video/".data ++ d)
  else none

/-- The Dropbox branch: replace a dl=0 query flag by raw=1, or append a
raw=1 flag. -/
def tryDropbox (url : List Char) : Option (List Char) :=
  if jsIncludes url "dropbox.com".data then
    if jsIncludes url "?dl=0".data then
      some (jsReplaceFirst "?dl=0".data "?raw=1".data url)
    else
      some (url ++ (if jsIncludes url ['?'] then "&raw=1".data else "?raw=1".data))
  else none

/-- Characters of the drive file id character class: letters, digits,
underscore and hyphen. -/
def driveIdChar (c : Char) : Bool :=
  c.isAlphanum || c == '_' || c == '-'

/-- Maximal run of drive id characters at the head of a character list. -/
def driveRun : List Char → List Char
  | [] => []
  | c :: rest => if driveIdChar c then c :: driveRun rest else []

/-- First match of the Google Drive file id pattern: the first position
where a /d/ segment is followed by at least one id character, capturing the
maximal id run. -/
def driveMatch : List Char → Option (List Char)
  | [] => none
  | c :: rest =>
    if "/d/".data.isPrefixOf (c :: rest) then
      let run := driveRun ((c :: rest).drop 3)
      if run = [] then driveMatch rest else some run
    else driveMatch rest

/-- The Google Drive branch: rewrite to the preview path form when the file
id pattern matches. -/
def tryGoogleDrive (url : List Char) : Option (List Char) :=
  if jsIncludes url "drive.google.com".data then
    (driveMatch url).map
      (fun i => "https://drive.google.com/file/d/".data ++ i ++ "/preview".data)
  else none

/-- The OneDrive branch: append an embed=1 flag. -/
def tryOneDrive (url : List Char) : Option (List Char) :=
  if jsIncludes url "onedrive.live.com".data || jsIncludes url "1drv.ms".data then
    some (url ++ (if jsIncludes url ['?'] then "&embed=1".data else "?embed=1".data))
  else none

/-- The direct-media extension list for images used by convertToEmbedUrl. -/
def embedImageExts : List (List Char) :=
  [".jpg".data, ".jpeg".data, ".png".data, ".gif".data, ".webp".data, ".bmp".data]

/-- The direct-media extension list for videos used by convertToEmbedUrl. -/
def embedVideoExts : List (List Char) :=
  [".mp4".data, ".webm".data, ".mov".data]

/-- The final branch: return the URL unchanged when its lowercased form
ends with a known image or video extension. -/
def tryDirect (url : List Char) : Option (List Char) :=
  let lower := url.map Char.toLower
  if embedImageExts.any (fun e => e.isSuffixOf lower) then some url
  else if embedVideoExts.any (fun e => e.isSuffixOf lower) then some url
  else none

/-- Models convertToEmbedUrl: the provider rewrite rules tried in order,
each returning when it fires and falling through otherwise, with null for a
URL no rule recognises. -/
def convertToEmbedUrl (url : List Char) : Option (List Char) :=
  match tryYouTube url with
  | some r => some r
  | none =>
  match tryVimeo url with
  | some r => some r
  | none =>
  match tryDropbox url with
  | some r => some r
  | none =>
  match tryGoogleDrive url with
  | some r => some r
  | none =>
  match tryOneDrive url with
  | some r => some r
  | none => tryDirect url

/-- Characters allowed in the video ids the round-trip statement quantifies
over: letters, digits, hyphen and underscore (the id alphabet of the
watch-URL providers). -/
def safeIdChar (c : Char) : Bool :=
  c.isAlphanum || c == '-' || c == '_'

/-- Pointwise disagreement witnessed inside the overlap of a pattern and a
window: when true, the pattern can match at this window only beyond the
window text. -/
def chMismatch (pat q : List Char) : Bool :=
  (pat.zip q).any (fun pr => pr.1 != pr.2)

lemma handleReaction_fresh (k u : String) :
    handleReaction freshData k u = singletonData k u := by
  simp [handleReaction, freshData, singletonData, assocGet, bumpReaction, assocSet]

lemma handleReaction_singleton_same (k u v : String) :
    handleReaction (singletonData k v) k u = freshData := by
  simp [handleReaction, singletonData, removeReaction, assocGet, assocErase, freshData]

lemma handleReaction_singleton_other (j k u v : String) (h : j ≠ k) :
    handleReaction (singletonData j v) k u = singletonData k u := by
  simp [handleReaction, singletonData, removeReaction, assocGet, assocErase,
    bumpReaction, assocSet, h, Ne.symm h]

/-- Every reachable record is either fresh or holds exactly one kind with
count one and a single voter, which is also the recorded choice. -/
lemma reachable_char {d : ReactionData} (h : Reachable d) :
    d = freshData ∨ ∃ k u, d = singletonData k u := by
  induction h with
  | fresh => exact Or.inl rfl
  | step d k u _ ih =>
    rcases ih with rfl | ⟨j, v, rfl⟩
    · exact Or.inr ⟨k, u, handleReaction_fresh k u⟩
    · by_cases hjk : j = k
      · subst hjk
        exact Or.inl (handleReaction_singleton_same j u v)
      · exact Or.inr ⟨k, u, handleReaction_singleton_other j k u v hjk⟩

/-- The record invariant of the specification: every present kind has a
count equal to the size of its voter set, and each voter appears in the
voter set of at most one kind. -/
def recordInvariant (d : ReactionData) : Prop :=
  (∀ k r, assocGet d.reactions k = some r → r.count = (r.users.length : Int)) ∧
  (∀ u k1 k2 r1 r2, assocGet d.reactions k1 = some r1 →
    assocGet d.reactions k2 = some r2 →
    u ∈ r1.users → u ∈ r2.users → k1 = k2)

lemma assocGet_singleton_cases {α : Type} {k key : String} {v r : α}
    (h : assocGet [(k, v)] key = some r) : k = key ∧ r = v := by
  by_cases hk : k = key
  · refine ⟨hk, ?_⟩
    simp [assocGet, hk] at h
    exact h.symm
  · simp [assocGet, hk] at h

lemma recordInvariant_of_shape {d : ReactionData}
    (h : d = freshData ∨ ∃ k u, d = singletonData k u) : recordInvariant d := by
  rcases h with rfl | ⟨k, u, rfl⟩
  · exact ⟨fun k r h => by simp [freshData, assocGet] at h,
      fun u k1 k2 r1 r2 h1 h2 _ _ => by simp [freshData, assocGet] at h1⟩
  · constructor
    · intro k' r hr
      rcases assocGet_singleton_cases hr with ⟨rfl, rfl⟩
      simp
    · intro w k1 k2 r1 r2 h1 h2 _ _
      rcases assocGet_singleton_cases h1 with ⟨rfl, rfl⟩
      rcases assocGet_singleton_cases h2 with ⟨rfl, rfl⟩
      rfl

/-- C3: for every reachable reaction record and every click transition
handled by handleReaction (adding a vote, toggling a vote off, or switching
kinds), the record invariant is preserved: at most one active kind per
voter, and for every present kind the count equals the size of its voter
set. -/
theorem C3_handleReaction_preserves_invariant (d : ReactionData) (k u : String)
    (h : Reachable d) : recordInvariant (handleReaction d k u) :=
  recordInvariant_of_shape (reachable_char (Reachable.step d k u h))

/-- Witness for C3 at a concrete reachable record and click. -/
theorem C3_handleReaction_preserves_invariant_witness :
    recordInvariant (handleReaction freshData "fire" "u1") :=
  C3_handleReaction_preserves_invariant freshData "fire" "u1" Reachable.fresh

/-- C4: from a fresh record, voter V clicking fire and then down yields a
stored record with displayed fire count zero, down count one, userChoice
down, V absent from the fire voter set and present in the down voter set;
the fire decrement and down increment reach the store in one single write
of the full record, and when that write fails neither mutation persists. -/
theorem C4_fire_then_down :
    countOf (loadReactionsForMedia
      (handleReactionFull false
        (handleReactionFull false [] "m1" "fire" "V").1 "m1" "down" "V").1 "m1") "fire" = 0 ∧
    countOf (loadReactionsForMedia
      (handleReactionFull false
        (handleReactionFull false [] "m1" "fire" "V").1 "m1" "down" "V").1 "m1") "down" = 1 ∧
    (loadReactionsForMedia
      (handleReactionFull false
        (handleReactionFull false [] "m1" "fire" "V").1 "m1" "down" "V").1 "m1").userChoice
      = some "down" ∧
    "V" ∉ usersOf (loadReactionsForMedia
      (handleReactionFull false
        (handleReactionFull false [] "m1" "fire" "V").1 "m1" "down" "V").1 "m1") "fire" ∧
    "V" ∈ usersOf (loadReactionsForMedia
      (handleReactionFull false
        (handleReactionFull false [] "m1" "fire" "V").1 "m1" "down" "V").1 "m1") "down" ∧
    (handleReactionFull false
        (handleReactionFull false [] "m1" "fire" "V").1 "m1" "down" "V").1
      = assocSet (handleReactionFull false [] "m1" "fire" "V").1 "m1"
          (handleReactionFull false
            (handleReactionFull false [] "m1" "fire" "V").1 "m1" "down" "V").2 ∧
    (handleReactionFull true
        (handleReactionFull false [] "m1" "fire" "V").1 "m1" "down" "V").1
      = (handleReactionFull false [] "m1" "fire" "V").1 := by
  decide

/-- C5: clicking the same kind twice is the identity on a fresh record: at
the record level the double fire click returns the fresh record, and at the
store level the record stored for the media id after both persisted clicks
is exactly { reactions: {}, userChoice: null }. -/
theorem C5_toggle_identity (u m : String) :
    handleReaction (handleReaction freshData "fire" u) "fire" u = freshData ∧
    loadReactionsForMedia
      (handleReactionFull false
        (handleReactionFull false [] m "fire" u).1 m "fire" u).1 m = freshData := by
  constructor
  · rw [handleReaction_fresh, handleReaction_singleton_same]
  · simp [handleReactionFull, loadReactionsForMedia, saveReactionsForMedia,
      assocGet, assocSet, handleReaction_fresh, handleReaction_singleton_same]

/-- C6 counterexample: when the persistence write fails, the record handed
to the UI update is the new post-transition record, not the prior state:
from a fresh record a failed fire click leaves the store untouched but
shows count one and a highlighted fire choice. -/
theorem C6_failed_write_counterexample :
    (handleReactionFull true [] "m1" "fire" "u1").1 = [] ∧
    (handleReactionFull true [] "m1" "fire" "u1").2 ≠ loadReactionsForMedia [] "m1" ∧
    (handleReactionFull true [] "m1" "fire" "u1").2 = singletonData "fire" "u1" ∧
    countOf (handleReactionFull true [] "m1" "fire" "u1").2 "fire" = 1 ∧
    countOf (loadReactionsForMedia [] "m1") "fire" = 0 := by
  decide

/-- C6 amended: when the persistence write fails, the failure is caught and
logged and the store is left unchanged, but the UI is still updated with
the new post-transition record; the prior state is not preserved on screen
and reappears only on the next load from the store. -/
theorem C6_failed_write_amended (store : List (String × ReactionData)) (m k u : String) :
    (handleReactionFull true store m k u).1 = store ∧
    (handleReactionFull true store m k u).2
      = handleReaction (loadReactionsForMedia store m) k u :=
  ⟨rfl, rfl⟩

/-- C10: in every stored record reachable through handleReaction, every
present kind has count at least one (a kind whose count reaches zero is
deleted rather than kept at zero, and the clamped decrement never goes
negative); moreover removeReaction applied to a reachable record keeps
every surviving kind at count at least one. -/
theorem C10_present_counts_positive (d : ReactionData) (h : Reachable d) :
    (∀ k r, assocGet d.reactions k = some r → 1 ≤ r.count) ∧
    (∀ k u k' r', assocGet (removeReaction d k u).reactions k' = some r' →
      1 ≤ r'.count) := by
  rcases reachable_char h with rfl | ⟨k0, u0, rfl⟩
  · constructor
    · intro k r hr
      simp [freshData, assocGet] at hr
    · intro k u k' r' hr
      simp [removeReaction, freshData, assocGet] at hr
  · constructor
    · intro k r hr
      rcases assocGet_singleton_cases hr with ⟨rfl, rfl⟩
      norm_num
    · intro k u k' r' hr
      by_cases hk : k0 = k
      · subst hk
        simp [removeReaction, singletonData, assocGet, assocErase] at hr
      · simp only [removeReaction, singletonData, assocGet, if_neg hk] at hr
        rcases assocGet_singleton_cases hr with ⟨rfl, rfl⟩
        norm_num

/-- Witness for C10 at a concrete reachable record. -/
theorem C10_present_counts_positive_witness :
    (∀ k r, assocGet (singletonData "fire" "u1").reactions k = some r → 1 ≤ r.count) ∧
    (∀ k u k' r',
      assocGet (removeReaction (singletonData "fire" "u1") k u).reactions k' = some r' →
      1 ≤ r'.count) :=
  C10_present_counts_positive (singletonData "fire" "u1")
    (handleReaction_fresh "fire" "u1" ▸ Reachable.step freshData "fire" "u1" Reachable.fresh)

/-! ## Resolver theorems -/

/-- C1 counterexample: a primary catalog that fetches and parses
successfully but yields zero items does not fall through to the legacy
catalog: the resolver terminates in the no-media message even though the
legacy catalog holds a video that the legacy path would render. -/
theorem C1_empty_primary_counterexample :
    loadMediaFiles gid gid envEmptyPrimary
      = { rendered := [],
          message := some ("No media in catalog",
            "Add files and run: python catalog_manager_v2.py scan") } ∧
    loadFromCatalog gid gid legacyOneVideo .absent .absent
      = { rendered :=
            [{ id := some "gid", mtype := "video", cloudType := none, url := none,
               path := some "media/videos/sd/a.mp4", file := some "a.mp4",
               title := "", desc := "" }],
          message := none } ∧
    loadMediaFiles gid gid envEmptyPrimary
      ≠ loadFromCatalog gid gid legacyOneVideo .absent .absent := by
  decide

/-- C1 amended: the resolver consults the primary catalog first and honours
it whenever fetch and parse succeed, independently of any later source; it
falls through only when the primary step throws, to the legacy catalog when
that global is defined and otherwise to the directory listing; the override
store is a replacement step inside the primary and legacy paths rather than
an independent chain element; a structurally valid primary payload with
zero items terminates in the no-media message instead of falling through;
and on the directory-listing path a failed video fetch shows the no-media
message while a successful image fetch still renders its filtered anchors
beside it. -/
theorem C1_priority_chain_amended (genV genI : Nat → String) (env : Env) :
    (∀ d, env.mediaJson = some d →
      loadMediaFiles genV genI env = loadFromMediaJson genV genI d env.sv env.si) ∧
    (∀ cat, env.mediaJson = none → env.mediaCatalog = some cat →
      loadMediaFiles genV genI env = loadFromCatalog genV genI cat env.sv env.si) ∧
    (env.mediaJson = none → env.mediaCatalog = none →
      loadMediaFiles genV genI env
        = loadFromNginx genV genI env.nginxVideos env.nginxImages) ∧
    (∀ d, resolvedItems genV genI d env.sv env.si = [] →
      loadFromMediaJson genV genI d env.sv env.si
        = { rendered := [],
            message := some ("No media in catalog",
              "Add files and run: python catalog_manager_v2.py scan") }) ∧
    (∀ hi, loadFromNginx genV genI none (some hi)
        = { rendered := nginxImageItems genI 0 hi,
            message := some ("No media found",
              "Run: python catalog_manager_v2.py scan") }) := by
  refine ⟨?_, ?_, ?_, ?_, ?_⟩
  · intro d hd
    simp [loadMediaFiles, hd]
  · intro cat h1 h2
    simp [loadMediaFiles, h1, h2]
  · intro h1 h2
    simp [loadMediaFiles, h1, h2]
  · intro d h
    simp [loadFromMediaJson, h]
  · intro hi
    rfl

/-- Witness for C1 amended at the concrete empty-primary environment. -/
theorem C1_priority_chain_amended_witness :
    loadMediaFiles gid gid envEmptyPrimary
      = loadFromMediaJson gid gid { videos := [], images := [], cloud_links := [] }
          envEmptyPrimary.sv envEmptyPrimary.si :=
  (C1_priority_chain_amended gid gid envEmptyPrimary).1
    { videos := [], images := [], cloud_links := [] } rfl

/-- C2 counterexample: with an override present for videos but no override
key for images, the failed images lookup throws before either override is
applied, so the resolver uses the primary-catalog videos and ignores the
videos override entirely. -/
theorem C2_override_counterexample :
    resolvedItems gid gid catOneEach (.parsed [fileEntry "v2" "ovr.mp4"]) .absent
      = resolvedItems gid gid catOneEach .absent .absent ∧
    resolvedItems gid gid catOneEach (.parsed [fileEntry "v2" "ovr.mp4"]) .absent
      ≠ processVideos gid 0 [fileEntry "v2" "ovr.mp4"] ++
          processImages gid 0 catOneEach.images ++
          processCloudLinks catOneEach.cloud_links := by
  decide

/-- C2 amended: a videos override fully replaces (never merges with) the
primary-catalog videos, and the images kind stays with the primary catalog
unless its own override parses, provided the images key exists so that its
lookup does not throw; when the images key is absent, the thrown lookup
aborts both overrides and the primary catalog is used as-is. -/
theorem C2_override_replacement_amended (genV genI : Nat → String)
    (d : CatalogData) (v : List Entry) (si : StorageVal) (h : si ≠ .absent) :
    (resolvedItems genV genI d (.parsed v) si
      = processVideos genV 0 v ++
          processImages genI 0 (overrideImages d.images si) ++
          processCloudLinks d.cloud_links) ∧
    (resolvedItems genV genI d (.parsed v) .absent
      = resolvedItems genV genI d .absent .absent) := by
  refine ⟨?_, rfl⟩
  cases si with
  | absent => exact absurd rfl h
  | presentEmpty => rfl
  | invalid => rfl
  | parsed i => rfl

/-- Witness for C2 amended at a concrete catalog and override. -/
theorem C2_override_replacement_amended_witness :
    (resolvedItems gid gid catOneEach (.parsed [fileEntry "v2" "ovr.mp4"]) .presentEmpty
      = processVideos gid 0 [fileEntry "v2" "ovr.mp4"] ++
          processImages gid 0 (overrideImages catOneEach.images .presentEmpty) ++
          processCloudLinks catOneEach.cloud_links) ∧
    (resolvedItems gid gid catOneEach (.parsed [fileEntry "v2" "ovr.mp4"]) .absent
      = resolvedItems gid gid catOneEach .absent .absent) :=
  C2_override_replacement_amended gid gid catOneEach [fileEntry "v2" "ovr.mp4"]
    .presentEmpty (by decide)

/-- C7 counterexample: a primary-catalog video record whose filename
extension is not in the video allow-list is not skipped: it is resolved as
a video item pointing at the txt file. -/
theorem C7_extension_counterexample :
    resolvedItems gid gid
        { videos := [fileEntry "b1" "notes.txt"], images := [], cloud_links := [] }
        .absent .absent
      = [{ id := some "b1", mtype := "video", cloudType := none, url := none,
           path := some "media/videos/sd/notes.txt", file := some "notes.txt",
           title := "", desc := "" }] := by
  decide

lemma processVideos_length (gen : Nat → String) (i : Nat) (l : List Entry) :
    (processVideos gen i l).length = l.length := by
  induction l generalizing i with
  | nil => rfl
  | cons e rest ih => simp [processVideos, ih]

lemma processImages_length (gen : Nat → String) (i : Nat) (l : List Entry) :
    (processImages gen i l).length = l.length := by
  induction l generalizing i with
  | nil => rfl
  | cons e rest ih => simp [processImages, ih]

lemma processLegacyVideos_length (gen : Nat → String) (i : Nat) (l : List Entry) :
    (processLegacyVideos gen i l).length = (l.filter legacyKeep).length := by
  induction l generalizing i with
  | nil => rfl
  | cons e rest ih =>
    cases e with
    | str s => simp [processLegacyVideos, processLegacyVideo, legacyKeep, ih]
    | obj r =>
      by_cases h : jsTruthy r.file
      · simp [processLegacyVideos, processLegacyVideo, legacyKeep, h, ih]
      · simp [processLegacyVideos, processLegacyVideo, legacyKeep, h, ih]

lemma processLegacyImages_length (gen : Nat → String) (i : Nat) (l : List Entry) :
    (processLegacyImages gen i l).length = (l.filter legacyKeep).length := by
  induction l generalizing i with
  | nil => rfl
  | cons e rest ih =>
    cases e with
    | str s => simp [processLegacyImages, processLegacyImage, legacyKeep, ih]
    | obj r =>
      by_cases h : jsTruthy r.file
      · simp [processLegacyImages, processLegacyImage, legacyKeep, h, ih]
      · simp [processLegacyImages, processLegacyImage, legacyKeep, h, ih]

lemma nginxVideoItems_length (gen : Nat → String) (i : Nat) (l : List String) :
    (nginxVideoItems gen i l).length
      = (l.filter (nginxKeep nginxVideoExts)).length := by
  induction l generalizing i with
  | nil => rfl
  | cons f rest ih =>
    by_cases h : nginxKeep nginxVideoExts f
    · simp [nginxVideoItems, h, ih]
    · simp [nginxVideoItems, h, ih]

lemma nginxImageItems_length (gen : Nat → String) (i : Nat) (l : List String) :
    (nginxImageItems gen i l).length
      = (l.filter (nginxKeep nginxImageExts)).length := by
  induction l generalizing i with
  | nil => rfl
  | cons f rest ih =>
    by_cases h : nginxKeep nginxImageExts f
    · simp [nginxImageItems, h, ih]
    · simp [nginxImageItems, h, ih]

/-- C7 amended: only directory-listing records pass through the extension
allow-lists, where non-matching anchors are silently dropped without
aborting the rest of the batch; primary-catalog records are never skipped
at all, and legacy-catalog records are skipped only when an object entry
lacks a truthy file property, never because of an extension. -/
theorem C7_extension_filtering_amended :
    (∀ (gen : Nat → String) (i : Nat) (l : List Entry),
      (processVideos gen i l).length = l.length) ∧
    (∀ (gen : Nat → String) (i : Nat) (l : List Entry),
      (processImages gen i l).length = l.length) ∧
    (∀ (gen : Nat → String) (i : Nat) (l : List Entry),
      (processLegacyVideos gen i l).length = (l.filter legacyKeep).length) ∧
    (∀ (gen : Nat → String) (i : Nat) (l : List Entry),
      (processLegacyImages gen i l).length = (l.filter legacyKeep).length) ∧
    (∀ (gen : Nat → String) (i : Nat) (l : List String),
      (nginxVideoItems gen i l).length = (l.filter (nginxKeep nginxVideoExts)).length) ∧
    (∀ (gen : Nat → String) (i : Nat) (l : List String),
      (nginxImageItems gen i l).length = (l.filter (nginxKeep nginxImageExts)).length) :=
  ⟨processVideos_length, processImages_length, processLegacyVideos_length,
    processLegacyImages_length, nginxVideoItems_length, nginxImageItems_length⟩

/-- C9: on a fully resolved 12-item list with page size 5, repeated calls
of displayNextBatch display 5, 10, 12 and 12 items, no index is ever
rendered twice, and once everything is displayed a further call leaves the
state unchanged and appends no node. -/
theorem C9_pagination :
    (pageStep pageS0).displayedCount = 5 ∧
    (pageStep (pageStep pageS0)).displayedCount = 10 ∧
    (pageStep (pageStep (pageStep pageS0))).displayedCount = 12 ∧
    (pageStep (pageStep (pageStep (pageStep pageS0)))).displayedCount = 12 ∧
    (pageStep pageS0).renderedIdx.Nodup ∧
    (pageStep (pageStep pageS0)).renderedIdx.Nodup ∧
    (pageStep (pageStep (pageStep pageS0))).renderedIdx.Nodup ∧
    (pageStep (pageStep (pageStep (pageStep pageS0)))).renderedIdx.Nodup ∧
    pageStep (pageStep (pageStep (pageStep pageS0)))
      = pageStep (pageStep (pageStep pageS0)) := by
  decide

/-! ## Embed translator lemmas -/

lemma isPrefixOf_append_of {p q : List Char} (r : List Char)
    (h : p.isPrefixOf q = true) : p.isPrefixOf (q ++ r) = true := by
  rw [ List.isPrefixOf_iff_prefix] at h ⊢
  exact h.trans (List.prefix_append q r)

lemma subset_of_isPrefixOf {p q : List Char} (h : p.isPrefixOf q = true) :
    ∀ c ∈ p, c ∈ q := by
  rw [ List.isPrefixOf_iff_prefix] at h
  exact fun c hc => h.subset hc

lemma findSub_none_of_badChar {pat : List Char} {c : Char} (hc : c ∈ pat) :
    ∀ {l : List Char}, c ∉ l → findSub pat l = none := by
  intro l
  induction l with
  | nil =>
    intro _
    cases pat with
    | nil => simp at hc
    | cons a p => simp [findSub, List.isEmpty]
  | cons a rest ih =>
    intro hl
    have h1 : ¬ (pat.isPrefixOf (a :: rest) = true) := fun hp =>
      hl (subset_of_isPrefixOf hp c hc)
    have h2 : c ∉ rest := fun hm => hl (List.mem_cons_of_mem a hm)
    simp [findSub, h1, ih h2]

lemma findSub_single_append {c : Char} {l1 : List Char} (l2 : List Char)
    (hc : c ∉ l1) : findSub [c] (l1 ++ c :: l2) = some l1.length := by
  induction l1 with
  | nil => simp [findSub, List.isPrefixOf]
  | cons a rest ih =>
    have ha : ¬ (c = a) := fun h => hc (h ▸ List.mem_cons_self a rest)
    have h1 : ([c]).isPrefixOf (a :: (rest ++ c :: l2)) = false := by
      simp [List.isPrefixOf, ha]
    have h2 : c ∉ rest := fun hm => hc (List.mem_cons_of_mem a hm)
    simp [findSub, List.cons_append, h1, ih h2]

lemma isPrefixOf_eq_false_of_chMismatch {pat q : List Char} (r : List Char)
    (h : chMismatch pat q = true) : pat.isPrefixOf (q ++ r) = false := by
  induction pat generalizing q with
  | nil => simp [chMismatch] at h
  | cons a p ih =>
    cases q with
    | nil => simp [chMismatch] at h
    | cons b q2 =>
      by_cases hab : a = b
      · subst hab
        have h2 : chMismatch p q2 = true := by
          simpa [chMismatch] using h
        simp [List.cons_append, List.isPrefixOf, ih h2]
      · simp [List.cons_append, List.isPrefixOf, hab]

lemma chMismatch_eq_false_left (q b : List Char) : chMismatch (q ++ b) q = false := by
  induction q with
  | nil => simp [chMismatch]
  | cons a q2 ih => simpa [chMismatch, List.cons_append] using ih

lemma chMismatch_eq_false_right (p t : List Char) : chMismatch p (p ++ t) = false := by
  induction p with
  | nil => simp [chMismatch]
  | cons a q2 ih => simpa [chMismatch, List.cons_append] using ih

lemma findSub_append_at {pat : List Char} (hpat : pat ≠ []) :
    ∀ (j : Nat) (P pid : List Char), pat.isPrefixOf (P.drop j) = true →
      (∀ j2 < j, chMismatch pat (P.drop j2) = true) →
      findSub pat (P ++ pid) = some j := by
  intro j
  induction j with
  | zero =>
    intro P pid h1 _
    cases P with
    | nil =>
      rw [ List.isPrefixOf_iff_prefix] at h1
      simp at h1
      exact absurd h1 hpat
    | cons a P2 =>
      have hp : pat.isPrefixOf ((a :: P2) ++ pid) = true :=
        isPrefixOf_append_of pid h1
      rw [List.cons_append] at hp
      simp [findSub, List.cons_append, hp]
  | succ j ih =>
    intro P pid h1 h2
    cases P with
    | nil =>
      rw [ List.isPrefixOf_iff_prefix] at h1
      simp at h1
      exact absurd h1 hpat
    | cons a P2 =>
      have hm : chMismatch pat (a :: P2) = true := by
        simpa using h2 0 (Nat.succ_pos j)
      have hfalse : pat.isPrefixOf (a :: (P2 ++ pid)) = false := by
        have := isPrefixOf_eq_false_of_chMismatch pid hm
        rwa [List.cons_append] at this
      have hrec : findSub pat (P2 ++ pid) = some j :=
        ih P2 pid (by simpa [List.drop_succ_cons] using h1)
          (fun j2 hj2 => by
            simpa [List.drop_succ_cons] using h2 (j2 + 1) (Nat.succ_lt_succ hj2))
      simp [findSub, List.cons_append, hfalse, hrec]

lemma exists_decomp_of_findSub {pat s : List Char} {i : Nat}
    (h : findSub pat s = some i) : ∃ u v, s = u ++ pat ++ v := by
  induction s generalizing i with
  | nil =>
    by_cases hp : pat.isEmpty
    · refine ⟨[], [], ?_⟩
      cases pat with
      | nil => rfl
      | cons a q => simp [List.isEmpty] at hp
    · simp [findSub, hp] at h
  | cons a rest ih =>
    by_cases hpre : pat.isPrefixOf (a :: rest) = true
    · rw [ List.isPrefixOf_iff_prefix] at hpre
      obtain ⟨t, ht⟩ := hpre
      exact ⟨[], t, by simp [ht.symm]⟩
    · have hpre2 : pat.isPrefixOf (a :: rest) = false := by
        cases hb : pat.isPrefixOf (a :: rest)
        · rfl
        · exact absurd hb hpre
      rw [findSub, hpre2] at h
      simp only [Bool.false_eq_true, if_false, Option.map_eq_some'] at h
      obtain ⟨j, hj, _⟩ := h
      obtain ⟨u, v, huv⟩ := ih hj
      exact ⟨a :: u, v, by simp [huv]⟩

lemma findSub_isSome_append (u pat v : List Char) :
    (findSub pat (u ++ pat ++ v)).isSome = true := by
  induction u with
  | nil =>
    cases pat with
    | nil =>
      cases v with
      | nil => simp [findSub]
      | cons a t => simp [findSub, List.isPrefixOf]
    | cons p pt =>
      have hp : (p :: pt).isPrefixOf ((p :: pt) ++ v) = true := by
        rw [ List.isPrefixOf_iff_prefix]
        exact List.prefix_append _ _
      rw [List.cons_append] at hp
      simp [findSub, List.cons_append, hp]
  | cons a u2 ih =>
    rw [List.append_assoc] at ih
    by_cases hpre : pat <+: (a :: (u2 ++ (pat ++ v)))
    · simp [findSub, List.cons_append, List.append_assoc, hpre]
    · simp [findSub, List.cons_append, List.append_assoc, hpre, ih]

lemma jsIncludes_append_of {P pat : List Char} (pid : List Char)
    (h : jsIncludes P pat = true) : jsIncludes (P ++ pid) pat = true := by
  unfold jsIncludes at h ⊢
  obtain ⟨i, hi⟩ := Option.isSome_iff_exists.mp h
  obtain ⟨u, v, rfl⟩ := exists_decomp_of_findSub hi
  have := findSub_isSome_append u pat (v ++ pid)
  simpa [List.append_assoc] using this

lemma not_mem_of_safe {c : Char} {l : List Char} (hcs : safeIdChar c = false)
    (hl : ∀ x ∈ l, safeIdChar x = true) : c ∉ l := by
  intro hm
  rw [hl c hm] at hcs
  simp at hcs

lemma jsIncludes_eq_false_of_straddle (pat P : List Char) (c : Char)
    (hc : c ∈ pat) (hcs : safeIdChar c = false)
    (h2 : ∀ j < P.length, chMismatch pat (P.drop j) = true)
    (pid : List Char) (hid : ∀ x ∈ pid, safeIdChar x = true) :
    jsIncludes (P ++ pid) pat = false := by
  cases hincl : jsIncludes (P ++ pid) pat
  · rfl
  · exfalso
    unfold jsIncludes at hincl
    obtain ⟨i, hi⟩ := Option.isSome_iff_exists.mp hincl
    obtain ⟨s, v, hs⟩ := exists_decomp_of_findSub hi
    have hs2 : s ++ (pat ++ v) = P ++ pid := by
      rw [← List.append_assoc]
      exact hs.symm
    rcases List.append_eq_append_iff.mp hs2 with ⟨a2, hP, hb⟩ | ⟨c2, _, hid2⟩
    · rcases List.append_eq_append_iff.mp hb with ⟨b2, ha2, _⟩ | ⟨b2, hpat, hid3⟩
      · cases a2 with
        | nil =>
          have hpat0 : pat = [] := (List.append_eq_nil.mp ha2.symm).1
          rw [hpat0] at hc
          simp at hc
        | cons a0 a2t =>
          have hj : s.length < P.length := by
            have hpos : 0 < (a0 :: a2t).length := by simp
            rw [hP, List.length_append]
            omega
          have hdrop : P.drop s.length = a0 :: a2t := by
            rw [hP]
            exact List.drop_left s (a0 :: a2t)
          have hmm2 := h2 s.length hj
          rw [hdrop, ha2, chMismatch_eq_false_right] at hmm2
          simp at hmm2
      · cases a2 with
        | nil =>
          have hcb : c ∈ b2 := by
            have hpb : pat = b2 := by simpa using hpat
            rwa [hpb] at hc
          have hcid : c ∈ pid := by
            rw [hid3]
            exact List.mem_append_left _ hcb
          rw [hid c hcid] at hcs
          simp at hcs
        | cons a0 a2t =>
          have hj : s.length < P.length := by
            have hpos : 0 < (a0 :: a2t).length := by simp
            rw [hP, List.length_append]
            omega
          have hdrop : P.drop s.length = a0 :: a2t := by
            rw [hP]
            exact List.drop_left s (a0 :: a2t)
          have hmm2 := h2 s.length hj
          rw [hdrop, hpat, chMismatch_eq_false_left] at hmm2
          simp at hmm2
    · have hcid : c ∈ pid := by
        rw [hid2]
        exact List.mem_append_right _ (List.mem_append_left _ hc)
      rw [hid c hcid] at hcs
      simp at hcs

lemma jsSplitAux_of_none {sep s : List Char} {fuel : Nat} (h : findSub sep s = none)
    (hf : fuel ≠ 0) : jsSplitAux sep fuel s = [s] := by
  cases fuel with
  | zero => exact absurd rfl hf
  | succ n => simp [jsSplitAux, h]

lemma jsSplitAux_of_some {sep s : List Char} {fuel i : Nat} (h : findSub sep s = some i)
    (hf : fuel ≠ 0) :
    jsSplitAux sep fuel s
      = s.take i :: jsSplitAux sep (fuel - 1) (s.drop (i + sep.length)) := by
  cases fuel with
  | zero => exact absurd rfl hf
  | succ n => simp [jsSplitAux, h]

lemma jsSplit_of_no_occ {c : Char} {l : List Char} (h : c ∉ l) :
    jsSplit [c] l = [l] := by
  unfold jsSplit
  exact jsSplitAux_of_none (findSub_none_of_badChar (List.mem_singleton_self c) h)
    (Nat.succ_ne_zero _)

lemma jsSplit_single_append {c : Char} {l1 l2 : List Char}
    (hc1 : c ∉ l1) (hc2 : c ∉ l2) : jsSplit [c] (l1 ++ c :: l2) = [l1, l2] := by
  unfold jsSplit
  rw [jsSplitAux_of_some (findSub_single_append l2 hc1) (Nat.succ_ne_zero _)]
  have ht : (l1 ++ c :: l2).take l1.length = l1 := List.take_left l1 (c :: l2)
  have hd : (l1 ++ c :: l2).drop (l1.length + 1) = l2 := by
    rw [show l1 ++ c :: l2 = (l1 ++ [c]) ++ l2 by simp,
      show l1.length + 1 = (l1 ++ [c]).length by simp]
    exact List.drop_left _ _
  have hlen : ↑(l1 ++ c :: l2).length + 1 - 1 ≠ 0 := by
    simp
  rw [ht]
  have hsz : l1.length + [c].length = l1.length + 1 := by simp
  rw [hsz, hd]
  rw [jsSplitAux_of_none (findSub_none_of_badChar (List.mem_singleton_self c) hc2) hlen]

lemma searchParamsGet_v (vid : List Char)
    (hq : ('?' : Char) ∉ vid) (ha : ('&' : Char) ∉ vid) (he : ('=' : Char) ∉ vid) :
    searchParamsGet "v".data ("v=".data ++ vid) = some vid := by
  have hcons : ("v=".data : List Char) ++ vid = 'v' :: '=' :: vid := rfl
  have hamp : ('&' : Char) ∉ ('v' :: '=' :: vid) := by
    intro hm
    rcases List.mem_cons.mp hm with h | hm2
    · exact absurd h (by decide)
    rcases List.mem_cons.mp hm2 with h | hm3
    · exact absurd h (by decide)
    · exact ha hm3
  have hsplitamp : jsSplit ['&'] ('v' :: '=' :: vid) = ['v' :: '=' :: vid] :=
    jsSplit_of_no_occ hamp
  have hfind : findSub ['='] ('v' :: '=' :: vid) = some 1 := by
    have h0 : findSub ['='] ((['v'] : List Char) ++ '=' :: vid)
        = some (['v'] : List Char).length := findSub_single_append vid (by decide)
    simpa using h0
  rw [hcons]
  simp [searchParamsGet, hsplitamp, hfind]

lemma tryYouTube_watch (vid : List Char) (hv1 : vid ≠ [])
    (hv2 : ∀ c ∈ vid, safeIdChar c = true) :
    tryYouTube ("https://www.youtube.com/watch?v=".data ++ vid)
      = some ("https://www.youtube.com/embed/".data ++ vid) := by
  have hq : ('?' : Char) ∉ vid := not_mem_of_safe (by decide) hv2
  have ha : ('&' : Char) ∉ vid := not_mem_of_safe (by decide) hv2
  have he : ('=' : Char) ∉ vid := not_mem_of_safe (by decide) hv2
  have g1 : jsIncludes ("https://www.youtube.com/watch?v=".data ++ vid)
      "youtube.com".data = true := jsIncludes_append_of vid (by decide)
  have g2 : jsIncludes ("https://www.youtube.com/watch?v=".data ++ vid)
      "youtube.com/watch".data = true := jsIncludes_append_of vid (by decide)
  have hshape : ("https://www.youtube.com/watch?v=".data : List Char) ++ vid
      = "https://www.youtube.com/watch".data ++ '?' :: ("v=".data ++ vid) := by
    rw [show ("https://www.youtube.com/watch?v=".data : List Char)
        = "https://www.youtube.com/watch".data ++ '?' :: "v=".data from by decide]
    simp [List.append_assoc, List.cons_append]
  have hq2 : ('?' : Char) ∉ (("v=".data : List Char) ++ vid) := by
    intro hm
    rcases List.mem_append.mp hm with h | h
    · exact absurd h (by decide)
    · exact hq h
  have hqA : ('?' : Char) ∉ ("https://www.youtube.com/watch".data : List Char) := by
    decide
  have hsp : jsSplit ['?'] ("https://www.youtube.com/watch?v=".data ++ vid)
      = ["https://www.youtube.com/watch".data, "v=".data ++ vid] := by
    rw [hshape]
    exact jsSplit_single_append hqA hq2
  have hval : searchParamsGet ['v'] ('v' :: '=' :: vid) = some vid :=
    searchParamsGet_v vid hq ha he
  simp only [tryYouTube, g1, Bool.true_or, if_true, g2, hsp]
  simp [hval, hv1]

lemma jsSplit_ytbe (vid : List Char) (hv2 : ∀ c ∈ vid, safeIdChar c = true) :
    jsSplit "youtu.be/".data ("https://youtu.be/".data ++ vid)
      = ["https://".data, vid] := by
  have hdot : ('.' : Char) ∉ vid := not_mem_of_safe (by decide) hv2
  have hfind : findSub "youtu.be/".data ("https://youtu.be/".data ++ vid) = some 8 :=
    findSub_append_at (by decide) 8 "https://youtu.be/".data vid (by decide) (by decide)
  unfold jsSplit
  rw [jsSplitAux_of_some hfind (Nat.succ_ne_zero _)]
  have ht : (("https://youtu.be/".data : List Char) ++ vid).take 8 = "https://".data := by
    rw [show ("https://youtu.be/".data : List Char)
        = "https://".data ++ "youtu.be/".data from by decide, List.append_assoc,
      show (8 : Nat) = ("https://".data : List Char).length from by decide]
    exact List.take_left _ _
  have hd : (("https://youtu.be/".data : List Char) ++ vid).drop
      (8 + ("youtu.be/".data : List Char).length) = vid := by
    rw [show 8 + ("youtu.be/".data : List Char).length
        = ("https://youtu.be/".data : List Char).length from by decide]
    exact List.drop_left _ _
  have h17 : ("https://youtu.be/".data : List Char).length = 17 := by decide
  have hfuel : (("https://youtu.be/".data : List Char) ++ vid).length + 1 - 1 ≠ 0 := by
    rw [List.length_append, h17]
    omega
  rw [ht, hd, jsSplitAux_of_none (findSub_none_of_badChar
    (show ('.' : Char) ∈ "youtu.be/".data from by decide) hdot) hfuel]

lemma tryYouTube_short (vid : List Char) (hv1 : vid ≠ [])
    (hv2 : ∀ c ∈ vid, safeIdChar c = true) :
    tryYouTube ("https://youtu.be/".data ++ vid)
      = some ("https://www.youtube.com/embed/".data ++ vid) := by
  have hq : ('?' : Char) ∉ vid := not_mem_of_safe (by decide) hv2
  have gB : jsIncludes ("https://youtu.be/".data ++ vid) "youtu.be".data = true :=
    jsIncludes_append_of vid (by decide)
  have gW : jsIncludes ("https://youtu.be/".data ++ vid) "youtube.com/watch".data
      = false :=
    jsIncludes_eq_false_of_straddle "youtube.com/watch".data "https://youtu.be/".data '.'
      (by decide) (by decide) (by decide) vid hv2
  have gS : jsIncludes ("https://youtu.be/".data ++ vid) "youtu.be/".data = true :=
    jsIncludes_append_of vid (by decide)
  have hsp := jsSplit_ytbe vid hv2
  have hsp2 : jsSplit ['?'] vid = [vid] := jsSplit_of_no_occ hq
  simp only [tryYouTube, gB, Bool.or_true, if_true, gW, gS, hsp]
  simp [hsp2, hv1]

lemma convertToEmbedUrl_of_youtube {url r : List Char} (h : tryYouTube url = some r) :
    convertToEmbedUrl url = some r := by
  simp [convertToEmbedUrl, h]

/-- C8: for every nonempty video id over the id alphabet, the watch query
form and the short-link path form both translate to the embed-path URL
carrying the same id (which the result therefore contains); and every URL
that matches none of the provider markers and carries no known image or
video extension translates to null. -/
theorem C8_toEmbeddable_roundtrip (vid url : List Char) (hv1 : vid ≠ [])
    (hv2 : ∀ c ∈ vid, safeIdChar c = true)
    (hu1 : jsIncludes url "youtube.com".data = false)
    (hu2 : jsIncludes url "youtu.be".data = false)
    (hu3 : jsIncludes url "vimeo.com".data = false)
    (hu4 : jsIncludes url "dropbox.com".data = false)
    (hu5 : jsIncludes url "drive.google.com".data = false)
    (hu6 : jsIncludes url "onedrive.live.com".data = false)
    (hu7 : jsIncludes url "1drv.ms".data = false)
    (hu8 : embedImageExts.any (fun e => e.isSuffixOf (url.map Char.toLower)) = false)
    (hu9 : embedVideoExts.any (fun e => e.isSuffixOf (url.map Char.toLower)) = false) :
    convertToEmbedUrl ("https://www.youtube.com/watch?v=".data ++ vid)
      = some ("https://www.youtube.com/embed/".data ++ vid) ∧
    convertToEmbedUrl ("https://youtu.be/".data ++ vid)
      = some ("https://www.youtube.com/embed/".data ++ vid) ∧
    jsIncludes ("https://www.youtube.com/embed/".data ++ vid) vid = true ∧
    convertToEmbedUrl url = none := by
  refine ⟨convertToEmbedUrl_of_youtube (tryYouTube_watch vid hv1 hv2),
    convertToEmbedUrl_of_youtube (tryYouTube_short vid hv1 hv2), ?_, ?_⟩
  · have h := findSub_isSome_append "https://www.youtube.com/embed/".data vid []
    unfold jsIncludes
    simpa using h
  · have t1 : tryYouTube url = none := by simp [tryYouTube, hu1, hu2]
    have t2 : tryVimeo url = none := by simp [tryVimeo, hu3]
    have t3 : tryDropbox url = none := by simp [tryDropbox, hu4]
    have t4 : tryGoogleDrive url = none := by simp [tryGoogleDrive, hu5]
    have t5 : tryOneDrive url = none := by simp [tryOneDrive, hu6, hu7]
    have t6 : tryDirect url = none := by simp [tryDirect, hu8, hu9]
    simp [convertToEmbedUrl, t1, t2, t3, t4, t5, t6]

/-- Witness for C8 at the id XYZ and a concrete unrecognized URL. -/
theorem C8_toEmbeddable_roundtrip_witness :
    convertToEmbedUrl ("https://www.youtube.com/watch?v=".data ++ "XYZ".data)
      = some ("https://www.youtube.com/embed/".data ++ "XYZ".data) ∧
    convertToEmbedUrl ("https://youtu.be/".data ++ "XYZ".data)
      = some ("https://www.youtube.com/embed/".data ++ "XYZ".data) ∧
    jsIncludes ("https://www.youtube.com/embed/".data ++ "XYZ".data) "XYZ".data = true ∧
    convertToEmbedUrl "https://example.org/page".data = none :=
  C8_toEmbeddable_roundtrip "XYZ".data "https://example.org/page".data
    (by decide) (by decide) (by decide) (by decide) (by decide) (by decide)
    (by decide) (by decide) (by decide) (by decide) (by decide)
